import Mathlib

/-!
Shallow embedding of `src/bin/pgcopydb/ld_apply.c`: the logical-replication
catch-up applier of pgcopydb.  LSNs (`XLogRecPtr`, unsigned 64-bit) are
modelled as `Nat`: the code only ever compares LSNs and copies them around, so
no modular arithmetic is observable.  The long-lived target database session
is modelled as the ordered trace of commands issued on it; a command the real
session would fail makes the C function return `false` immediately, which only
truncates the run, so commands are modelled as succeeding.  External JSON
parsing (parson's `json_parse_string` plus `parseMessageMetadata`, which live
outside this repository snapshot) is modelled as an oracle parameter.
-/

/-- The `StreamAction` enumeration from `ld_stream.h` (declared outside this
repository snapshot; its constructors are named at their use sites in
`ld_apply.c`).  `STREAM_ACTION_UNKNOWN` also stands for the out-of-range value
produced by the `return false` in `parseSQLAction`: both reach the `default`
arm of the `switch` in `stream_apply_file`. -/
inductive StreamAction where
  | STREAM_ACTION_UNKNOWN
  | STREAM_ACTION_BEGIN
  | STREAM_ACTION_COMMIT
  | STREAM_ACTION_SWITCH
  | STREAM_ACTION_KEEPALIVE
  | STREAM_ACTION_INSERT
  | STREAM_ACTION_UPDATE
  | STREAM_ACTION_DELETE
  | STREAM_ACTION_TRUNCATE
deriving DecidableEq, Repr

/-- Metadata parsed from the JSON payload of a control line
(`LogicalMessageMetadata` in the C source).  The C struct is zero-initialized
at each loop iteration of `stream_apply_file`. -/
structure LogicalMessageMetadata where
  action : StreamAction
  lsn : Nat
  xid : Nat
  timestamp : String
deriving DecidableEq, Repr

/-- Modelled from the spec: the control-line tag `OUTPUT_BEGIN` is a macro of
`ld_stream.h`, which is not part of this repository snapshot; spec section 6
fixes the tags as the exact strings BEGIN, COMMIT, SWITCHWAL, KEEPALIVE. -/
def OUTPUT_BEGIN : String := "BEGIN"

/-- Modelled from the spec: the `OUTPUT_COMMIT` tag, see `OUTPUT_BEGIN`. -/
def OUTPUT_COMMIT : String := "COMMIT"

/-- Modelled from the spec: the `OUTPUT_SWITCHWAL` tag, see `OUTPUT_BEGIN`. -/
def OUTPUT_SWITCHWAL : String := "SWITCHWAL"

/-- Modelled from the spec: the `OUTPUT_KEEPALIVE` tag, see `OUTPUT_BEGIN`. -/
def OUTPUT_KEEPALIVE : String := "KEEPALIVE"

/-- C strings are sequences of bytes; all the strings this module manipulates
are ASCII, so a string is modelled by its character list and `strlen` by the
list length. -/
def strLen (s : String) : Nat := s.data.length

/-- Whether `p` is a prefix of `s` (pointer equality `strstr(s, p) == s`). -/
def strIsPrefixOf (p s : String) : Bool := p.data.isPrefixOf s.data

/-- Pointer arithmetic `s + n`: the string `s` with its first `n` characters
removed. -/
def strDrop (s : String) (n : Nat) : String := String.mk (s.data.drop n)

/-- The test `strstr(q, pat) != NULL`: `pat` occurs somewhere in `q`. -/
def strContainsSub (q pat : String) : Bool :=
  q.data.tails.any fun t => pat.data.isPrefixOf t

/-- The control-tag dispatch of `parseSQLAction` (ld_apply.c lines 750-776).
`strstr(query, TAG) == query` holds exactly when `TAG` is a prefix of `query`
(the tags are non-empty, and `strstr` returns the first occurrence).  On a
match it yields the action together with the pointer `message` that is handed
to `json_parse_string`.  Note that the `OUTPUT_COMMIT` arm advances by
`strlen(OUTPUT_BEGIN)`, exactly as the C source does at line 765. -/
def controlBranch (query : String) : Option (StreamAction × String) :=
  if strIsPrefixOf OUTPUT_BEGIN query then
    some (.STREAM_ACTION_BEGIN, strDrop query (strLen OUTPUT_BEGIN))
  else if strIsPrefixOf OUTPUT_COMMIT query then
    some (.STREAM_ACTION_COMMIT, strDrop query (strLen OUTPUT_BEGIN))
  else if strIsPrefixOf OUTPUT_SWITCHWAL query then
    some (.STREAM_ACTION_SWITCH, strDrop query (strLen OUTPUT_SWITCHWAL))
  else if strIsPrefixOf OUTPUT_KEEPALIVE query then
    some (.STREAM_ACTION_KEEPALIVE, strDrop query (strLen OUTPUT_KEEPALIVE))
  else
    none

/-- The unconditional DML substring scan at the end of `parseSQLAction`
(ld_apply.c lines 794-809): it runs on every query that did not return early,
overriding `act` whenever one of the four patterns occurs. -/
def overrideDML (query : String) (act : StreamAction) : StreamAction :=
  if strContainsSub query "INSERT INTO" then .STREAM_ACTION_INSERT
  else if strContainsSub query "UPDATE " then .STREAM_ACTION_UPDATE
  else if strContainsSub query "DELETE FROM " then .STREAM_ACTION_DELETE
  else if strContainsSub query "TRUNCATE " then .STREAM_ACTION_TRUNCATE
  else act

/-- Function `parseSQLAction` (ld_apply.c lines 740-812).  `parseMeta` is the oracle
for the external JSON machinery (`json_parse_string` plus
`parseMessageMetadata`): it returns the metadata read from the payload, or
`none` when parsing fails, in which case the C function does `return false`
before reaching the DML scan (modelled as `STREAM_ACTION_UNKNOWN`, see
`StreamAction`).  Returns the action together with the metadata struct as the
caller sees it (`none` models the zero-initialized struct left untouched). -/
def parseSQLAction (parseMeta : String → Option LogicalMessageMetadata)
    (query : String) : StreamAction × Option LogicalMessageMetadata :=
  if query = "" then (.STREAM_ACTION_UNKNOWN, none)
  else
    match controlBranch query with
    | some (act, message) =>
      match parseMeta message with
      | none => (.STREAM_ACTION_UNKNOWN, none)
      | some md => (overrideDML query act, some { md with action := act })
    | none => (overrideDML query .STREAM_ACTION_UNKNOWN, none)

example : (parseSQLAction (fun _ => none) "").1 = .STREAM_ACTION_UNKNOWN := rfl

example : controlBranch "COMMITXYZ" = some (.STREAM_ACTION_COMMIT, "TXYZ") := by
  decide

example : (parseSQLAction (fun _ => none) "INSERT INTO t VALUES (1);").1 =
    .STREAM_ACTION_INSERT := by decide

/-! ## The apply context and the target session -/

/-- The fields of `StreamApplyContext` (declared in `ld_stream.h`) that the
replayed control flow of `ld_apply.c` reads or writes.  The path, URI, WAL
file-name and connection fields carry no logic relevant here. -/
structure StreamApplyContext where
  previousLSN : Nat
  startpos : Nat
  endpos : Nat
  apply : Bool
  reachedEndPos : Bool
deriving DecidableEq, Repr

/-- One command issued on the long-lived target database session.  `COMMIT` is
issued through `pgsql_execute` (the C comment: calling `pgsql_commit()` would
finish the connection). -/
inductive SessionOp where
  | pgsql_begin
  | origin_xact_setup (lsn : Nat) (timestamp : String)
  | pgsql_execute (sql : String)
deriving DecidableEq, Repr

/-- One line of the SQL file as `stream_apply_file` sees it after the call to
`parseSQLAction`: the returned action, the metadata fields (left at their
zero-initialized values when no JSON payload was parsed), and the raw line
text. -/
structure ApplyLine where
  action : StreamAction
  lsn : Nat
  xid : Nat
  timestamp : String
  sql : String
deriving DecidableEq, Repr

/-- The state threaded through the replay loop of `stream_apply_file`: the
apply context, the local `reachedStartingPosition` flag, the trace of commands
issued on the target session so far, and `ok = false` once the function has
taken a `return false` path (after which no further line is processed). -/
structure ApplyState where
  ctx : StreamApplyContext
  reachedStartingPosition : Bool
  trace : List SessionOp
  ok : Bool
deriving DecidableEq, Repr

/-- The final-semicolon chomp of the DML case (ld_apply.c lines 571-578).
The C code reads `sql[len - 1]` unconditionally; a DML line is never empty
(the empty line is classified `STREAM_ACTION_UNKNOWN`), and on the empty
string this model just returns it. -/
def chompSemicolon (s : String) : String :=
  match s.data.getLast? with
  | some c => if c = ';' then String.mk s.data.dropLast else s
  | none => s

/-- One iteration of the replay loop of `stream_apply_file` (ld_apply.c lines
320-594), processing line `l`; `isLast` tells whether `i = count - 1`.
Database commands are appended to the trace; a command failure would make the
C function return with the commands so far issued, truncating the run, and is
not modelled further. -/
def applyOneLine (st : ApplyState) (l : ApplyLine) (isLast : Bool) : ApplyState :=
  match l.action with
  | .STREAM_ACTION_SWITCH =>
    if !isLast then
      { st with ok := false }
    else
      { st with ctx := { st.ctx with previousLSN := l.lsn } }
  | .STREAM_ACTION_BEGIN =>
    let rs := st.reachedStartingPosition || decide (st.ctx.previousLSN < l.lsn)
    if l.lsn = 0 ∨ l.timestamp = "" then
      { st with reachedStartingPosition := rs, ok := false }
    else if st.ctx.endpos ≠ 0 ∧ st.ctx.endpos ≤ l.lsn then
      { st with reachedStartingPosition := rs,
                ctx := { st.ctx with reachedEndPos := true } }
    else if !rs then
      { st with reachedStartingPosition := rs }
    else
      { st with reachedStartingPosition := rs,
                trace := st.trace ++
                  [.pgsql_begin, .origin_xact_setup l.lsn l.timestamp] }
  | .STREAM_ACTION_COMMIT =>
    if !st.reachedStartingPosition then
      st
    else
      let st' := { st with trace := st.trace ++ [.pgsql_execute "COMMIT"],
                           ctx := { st.ctx with previousLSN := l.lsn } }
      if st'.ctx.endpos ≠ 0 ∧ st'.ctx.endpos ≤ st'.ctx.previousLSN then
        { st' with ctx := { st'.ctx with reachedEndPos := true } }
      else
        st'
  | .STREAM_ACTION_KEEPALIVE =>
    let rs := st.reachedStartingPosition || decide (st.ctx.previousLSN < l.lsn)
    if l.lsn = 0 ∨ l.timestamp = "" then
      { st with reachedStartingPosition := rs, ok := false }
    else if st.ctx.endpos ≠ 0 ∧ st.ctx.endpos < l.lsn then
      { st with reachedStartingPosition := rs,
                ctx := { st.ctx with reachedEndPos := true } }
    else if !rs then
      { st with reachedStartingPosition := rs }
    else
      let st' := { st with reachedStartingPosition := rs,
                           trace := st.trace ++
                             [.pgsql_begin,
                              .origin_xact_setup l.lsn l.timestamp,
                              .pgsql_execute "COMMIT"],
                           ctx := { st.ctx with previousLSN := l.lsn } }
      if st'.ctx.endpos ≠ 0 ∧ st'.ctx.endpos ≤ st'.ctx.previousLSN then
        { st' with ctx := { st'.ctx with reachedEndPos := true } }
      else
        st'
  | .STREAM_ACTION_INSERT =>
    if !st.reachedStartingPosition then st
    else { st with trace := st.trace ++ [.pgsql_execute (chompSemicolon l.sql)] }
  | .STREAM_ACTION_UPDATE =>
    if !st.reachedStartingPosition then st
    else { st with trace := st.trace ++ [.pgsql_execute (chompSemicolon l.sql)] }
  | .STREAM_ACTION_DELETE =>
    if !st.reachedStartingPosition then st
    else { st with trace := st.trace ++ [.pgsql_execute (chompSemicolon l.sql)] }
  | .STREAM_ACTION_TRUNCATE =>
    if !st.reachedStartingPosition then st
    else { st with trace := st.trace ++ [.pgsql_execute (chompSemicolon l.sql)] }
  | .STREAM_ACTION_UNKNOWN =>
    { st with ok := false }

/-- The replay loop: `for (i = 0; i < count && !reachedEndPos; i++)`, with the
early `return false` paths modelled by freezing the state once `ok` is
false. -/
def applyLoop (st : ApplyState) : List (ApplyLine × Bool) → ApplyState
  | [] => st
  | (l, isLast) :: rest =>
    if st.ok = false ∨ st.ctx.reachedEndPos = true then st
    else applyLoop (applyOneLine st l isLast) rest

/-- Pair each line with the flag `i = count - 1` of the C loop. -/
def markLast : List ApplyLine → List (ApplyLine × Bool)
  | [] => []
  | [l] => [(l, true)]
  | l :: l' :: rest => (l, false) :: markLast (l' :: rest)

/-- The state `stream_apply_file` starts its loop from: the caller's context,
`reachedStartingPosition = false` (ld_apply.c line 317), no commands issued
yet. -/
def applyInit (ctx : StreamApplyContext) : ApplyState :=
  { ctx := ctx, reachedStartingPosition := false, trace := [], ok := true }

/-- Function `stream_apply_file` (ld_apply.c lines 286-601) on the already-parsed view
of the file's lines: final state of the replay loop. -/
def stream_apply_file (ctx : StreamApplyContext) (lines : List ApplyLine) :
    ApplyState :=
  applyLoop (applyInit ctx) (markLast lines)

/-- The state of the replay loop of `stream_apply_file` after its first `i`
iterations. -/
def stream_apply_file_upto (ctx : StreamApplyContext) (lines : List ApplyLine)
    (i : Nat) : ApplyState :=
  applyLoop (applyInit ctx) ((markLast lines).take i)

/-- The view of one text line after `parseSQLAction` filled in the
zero-initialized `LogicalMessageMetadata` (ld_apply.c lines 322-325). -/
def lineOfText (parseMeta : String → Option LogicalMessageMetadata)
    (s : String) : ApplyLine :=
  match parseSQLAction parseMeta s with
  | (act, some md) =>
    { action := act, lsn := md.lsn, xid := md.xid,
      timestamp := md.timestamp, sql := s }
  | (act, none) =>
    { action := act, lsn := 0, xid := 0, timestamp := "", sql := s }

/-- Function `stream_apply_file` on the split text lines of the file. -/
def stream_apply_file_text (parseMeta : String → Option LogicalMessageMetadata)
    (ctx : StreamApplyContext) (texts : List String) : ApplyState :=
  stream_apply_file ctx (texts.map (lineOfText parseMeta))

/-- Single transaction, no endpos (spec scenario 2, scaled down): the
transaction is applied, `previousLSN` follows the COMMIT then the SWITCH. -/
example :
    stream_apply_file ⟨10, 0, 0, true, false⟩
      [⟨.STREAM_ACTION_BEGIN, 40, 1, "t1", ""⟩,
       ⟨.STREAM_ACTION_INSERT, 0, 0, "", "INSERT INTO t VALUES (1);"⟩,
       ⟨.STREAM_ACTION_COMMIT, 60, 1, "", ""⟩,
       ⟨.STREAM_ACTION_SWITCH, 100, 0, "", ""⟩] =
    { ctx := ⟨100, 0, 0, true, false⟩,
      reachedStartingPosition := true,
      trace := [.pgsql_begin, .origin_xact_setup 40 "t1",
                .pgsql_execute "INSERT INTO t VALUES (1)",
                .pgsql_execute "COMMIT"],
      ok := true } := by decide

/-- Endpos mid-transaction: the code compares endpos to the BEGIN's own LSN
(40), not the commit LSN (60), so the transaction IS applied and the origin
ends past endpos (this run refutes both halves of spec property P3's fine
print; spec scenario 3 predicts the opposite). -/
example :
    stream_apply_file ⟨10, 0, 50, true, false⟩
      [⟨.STREAM_ACTION_BEGIN, 40, 1, "t1", ""⟩,
       ⟨.STREAM_ACTION_COMMIT, 60, 1, "", ""⟩] =
    { ctx := ⟨60, 0, 50, true, true⟩,
      reachedStartingPosition := true,
      trace := [.pgsql_begin, .origin_xact_setup 40 "t1",
                .pgsql_execute "COMMIT"],
      ok := true } := by decide

/-- Keepalive at endpos (spec scenario 4): applied, origin reaches exactly
endpos, `reachedEndPos` set by the post-commit recheck. -/
example :
    stream_apply_file ⟨10, 0, 50, true, false⟩
      [⟨.STREAM_ACTION_KEEPALIVE, 50, 0, "t2", ""⟩] =
    { ctx := ⟨50, 0, 50, true, true⟩,
      reachedStartingPosition := true,
      trace := [.pgsql_begin, .origin_xact_setup 50 "t2",
                .pgsql_execute "COMMIT"],
      ok := true } := by decide

/-- Resume skip (spec scenario 5): transaction at or below the bootstrap LSN
is skipped entirely, the next one is applied. -/
example :
    stream_apply_file ⟨60, 0, 0, true, false⟩
      [⟨.STREAM_ACTION_BEGIN, 40, 1, "t1", ""⟩,
       ⟨.STREAM_ACTION_INSERT, 0, 0, "", "INSERT INTO a VALUES (1);"⟩,
       ⟨.STREAM_ACTION_COMMIT, 60, 1, "", ""⟩,
       ⟨.STREAM_ACTION_BEGIN, 80, 2, "t2", ""⟩,
       ⟨.STREAM_ACTION_INSERT, 0, 0, "", "INSERT INTO b VALUES (2);"⟩,
       ⟨.STREAM_ACTION_COMMIT, 90, 2, "", ""⟩] =
    { ctx := ⟨90, 0, 0, true, false⟩,
      reachedStartingPosition := true,
      trace := [.pgsql_begin, .origin_xact_setup 80 "t2",
                .pgsql_execute "INSERT INTO b VALUES (2)",
                .pgsql_execute "COMMIT"],
      ok := true } := by decide

/-- A SWITCH that is not the last line aborts the replay. -/
example :
    (stream_apply_file ⟨10, 0, 0, true, false⟩
      [⟨.STREAM_ACTION_SWITCH, 100, 0, "", ""⟩,
       ⟨.STREAM_ACTION_KEEPALIVE, 120, 0, "t", ""⟩]).ok = false := by decide

/-! ## Sentinel client and bootstrap -/

/-- The sentinel fields the applier consumes (`CopyDBSentinel`); the C local
is zero-initialized: `CopyDBSentinel sentinel = { 0 }`. -/
structure CopyDBSentinel where
  startpos : Nat
  endpos : Nat
  apply : Bool
deriving DecidableEq, Repr

/-- Function `stream_apply_sync_sentinel` (ld_apply.c lines 257-279).  `pgsqlInitOk`
models `pgsql_init`, and `syncResult` models `pgsql_sync_sentinel_apply`:
`some s` when the call succeeds and fills the sentinel with the fetched
values, `none` when it fails, leaving the local sentinel zero-initialized
(the code then only logs a warning).  In both of the latter cases the code
falls through to the unconditional assignments of `context->apply`,
`context->endpos` and `context->startpos`. -/
def stream_apply_sync_sentinel (pgsqlInitOk : Bool)
    (syncResult : Option CopyDBSentinel) (ctx : StreamApplyContext) :
    Bool × StreamApplyContext :=
  if !pgsqlInitOk then
    (false, ctx)
  else
    let sentinel : CopyDBSentinel :=
      match syncResult with
      | some s => s
      | none => { startpos := 0, endpos := 0, apply := false }
    (true, { ctx with apply := sentinel.apply,
                      endpos := sentinel.endpos,
                      startpos := sentinel.startpos })

/-- The endpos recheck the catch-up driver performs right after syncing the
sentinel (ld_apply.c lines 139-148). -/
def driverPostFileCheck (ctx : StreamApplyContext) : StreamApplyContext :=
  if ctx.reachedEndPos = false ∧ ctx.endpos ≠ 0 ∧ ctx.endpos ≤ ctx.previousLSN
  then { ctx with reachedEndPos := true }
  else ctx

/-- Outcome of `setupReplicationOrigin`: success flag, resulting context, and
whether the endpos-precedence warning of ld_apply.c lines 637-641 was
logged. -/
structure OriginBootstrapOutcome where
  ok : Bool
  ctx : StreamApplyContext
  warnedEndpos : Bool
deriving DecidableEq, Repr

/-- Function `setupReplicationOrigin` (ld_apply.c lines 612-708).  `endpos` is the
`--endpos` command-line value; `ctx.endpos` may have been set from the
sentinel by `stream_apply_wait_for_sentinel`.  `pgsqlInitOk`, `oidResult`
(`none` = query failed, `some oid` = fetched oid), `progressResult` (`none` =
query failed, `some lsn` = fetched origin progress) and `sessionSetupOk`
model the database calls.  The path and URI copies carry no logic here. -/
def setupReplicationOrigin (ctx : StreamApplyContext) (endpos : Nat)
    (apply : Bool) (pgsqlInitOk : Bool) (oidResult : Option Nat)
    (progressResult : Option Nat) (sessionSetupOk : Bool) :
    OriginBootstrapOutcome :=
  let warned := decide (endpos ≠ 0 ∧ ctx.endpos ≠ 0)
  let ctx1 := if endpos ≠ 0 then { ctx with endpos := endpos } else ctx
  let ctx2 := { ctx1 with apply := apply }
  if !pgsqlInitOk then
    { ok := false, ctx := ctx2, warnedEndpos := warned }
  else
    match oidResult with
    | none => { ok := false, ctx := ctx2, warnedEndpos := warned }
    | some 0 => { ok := false, ctx := ctx2, warnedEndpos := warned }
    | some _ =>
      match progressResult with
      | none => { ok := false, ctx := ctx2, warnedEndpos := warned }
      | some lsn =>
        let ctx3 := { ctx2 with previousLSN := lsn }
        if !sessionSetupOk then
          { ok := false, ctx := ctx3, warnedEndpos := warned }
        else
          { ok := true, ctx := ctx3, warnedEndpos := warned }

/-! ## Basic lemmas about the replay loop -/

theorem applyLoop_stopped (st : ApplyState) (ms : List (ApplyLine × Bool))
    (h : st.ok = false ∨ st.ctx.reachedEndPos = true) : applyLoop st ms = st := by
  cases ms with
  | nil => rfl
  | cons m rest =>
    obtain ⟨l, b⟩ := m
    simp only [applyLoop, if_pos h]

theorem applyLoop_append (st : ApplyState) (xs ys : List (ApplyLine × Bool)) :
    applyLoop st (xs ++ ys) = applyLoop (applyLoop st xs) ys := by
  induction xs generalizing st with
  | nil => rfl
  | cons m rest ih =>
    obtain ⟨l, b⟩ := m
    by_cases h : st.ok = false ∨ st.ctx.reachedEndPos = true
    · rw [List.cons_append]
      simp only [applyLoop, if_pos h]
      exact (applyLoop_stopped st ys h).symm
    · rw [List.cons_append]
      simp only [applyLoop, if_neg h]
      exact ih _

theorem markLast_cons_of_ne_nil (l : ApplyLine) (t : List ApplyLine)
    (h : t ≠ []) : markLast (l :: t) = (l, false) :: markLast t := by
  cases t with
  | nil => exact absurd rfl h
  | cons a as => rfl

theorem markLast_map_fst (xs : List ApplyLine) :
    (markLast xs).map Prod.fst = xs := by
  induction xs with
  | nil => rfl
  | cons l rest ih =>
    cases rest with
    | nil => rfl
    | cons l' rest' =>
      rw [markLast_cons_of_ne_nil l (l' :: rest') (by simp), List.map_cons, ih]

theorem markLast_append (xs ys : List ApplyLine) (h : ys ≠ []) :
    markLast (xs ++ ys) = xs.map (fun l => (l, false)) ++ markLast ys := by
  induction xs with
  | nil => rfl
  | cons l rest ih =>
    have hne : rest ++ ys ≠ [] := by
      cases rest <;> simp [h]
    rw [List.cons_append, markLast_cons_of_ne_nil l (rest ++ ys) hne, ih,
      List.map_cons, List.cons_append]

theorem applyOneLine_endpos (st : ApplyState) (l : ApplyLine) (b : Bool) :
    (applyOneLine st l b).ctx.endpos = st.ctx.endpos := by
  obtain ⟨a, lsn, xid, ts, sql⟩ := l
  cases a <;> simp only [applyOneLine] <;> split_ifs <;> rfl

theorem applyLoop_endpos (ms : List (ApplyLine × Bool)) (st : ApplyState) :
    (applyLoop st ms).ctx.endpos = st.ctx.endpos := by
  induction ms generalizing st with
  | nil => rfl
  | cons m rest ih =>
    obtain ⟨l, b⟩ := m
    by_cases h : st.ok = false ∨ st.ctx.reachedEndPos = true
    · rw [applyLoop_stopped st _ h]
    · simp only [applyLoop, if_neg h]
      rw [ih, applyOneLine_endpos]

/-! ## Bound on origin transaction setups when an endpos is set -/

theorem applyOneLine_xact_setup_bound (st : ApplyState) (l : ApplyLine)
    (b : Bool) (hend : st.ctx.endpos ≠ 0)
    (htr : ∀ lsn ts, SessionOp.origin_xact_setup lsn ts ∈ st.trace →
      lsn ≤ st.ctx.endpos) :
    ∀ lsn ts, SessionOp.origin_xact_setup lsn ts ∈ (applyOneLine st l b).trace →
      lsn ≤ st.ctx.endpos := by
  obtain ⟨a, llsn, lxid, lts, lsql⟩ := l
  cases a <;> simp only [applyOneLine] <;> intro lsn ts hmem
  case STREAM_ACTION_UNKNOWN =>
    exact htr lsn ts hmem
  case STREAM_ACTION_SWITCH =>
    split_ifs at hmem <;> exact htr lsn ts hmem
  case STREAM_ACTION_BEGIN =>
    split_ifs at hmem with h1 h2 h3
    · exact htr lsn ts hmem
    · exact htr lsn ts hmem
    · exact htr lsn ts hmem
    · simp only [List.mem_append, List.mem_cons, List.not_mem_nil, or_false] at hmem
      rcases hmem with hmem | hmem | hmem
      · exact htr lsn ts hmem
      · exact absurd hmem (by simp)
      · have hlt : llsn < st.ctx.endpos := by
          rcases not_and_or.mp h2 with h | h
          · exact absurd hend h
          · exact Nat.lt_of_not_le h
        have : lsn = llsn := by
          injection hmem
        omega
  case STREAM_ACTION_COMMIT =>
    split_ifs at hmem
    · exact htr lsn ts hmem
    · simp only [List.mem_append, List.mem_cons, List.not_mem_nil,
        or_false] at hmem
      rcases hmem with hmem | hmem
      · exact htr lsn ts hmem
      · exact absurd hmem (by simp)
    · simp only [List.mem_append, List.mem_cons, List.not_mem_nil,
        or_false] at hmem
      rcases hmem with hmem | hmem
      · exact htr lsn ts hmem
      · exact absurd hmem (by simp)
  case STREAM_ACTION_KEEPALIVE =>
    have hle : ¬(st.ctx.endpos ≠ 0 ∧ st.ctx.endpos < llsn) →
        llsn ≤ st.ctx.endpos := by
      intro h2
      rcases not_and_or.mp h2 with h | h
      · exact absurd hend h
      · exact Nat.le_of_not_lt h
    split_ifs at hmem with h1 h2 h3 h4
    · exact htr lsn ts hmem
    · exact htr lsn ts hmem
    · exact htr lsn ts hmem
    all_goals
      simp only [List.mem_append, List.mem_cons, List.not_mem_nil,
        or_false] at hmem
      rcases hmem with hmem | hmem | hmem | hmem
      · exact htr lsn ts hmem
      · exact absurd hmem (by simp)
      · have heq : lsn = llsn := by
          injection hmem
        have := hle h2
        omega
      · exact absurd hmem (by simp)
  case STREAM_ACTION_INSERT =>
    split_ifs at hmem
    · exact htr lsn ts hmem
    · simp only [List.mem_append, List.mem_cons, List.not_mem_nil,
        or_false] at hmem
      rcases hmem with hmem | hmem
      · exact htr lsn ts hmem
      · exact absurd hmem (by simp)
  case STREAM_ACTION_UPDATE =>
    split_ifs at hmem
    · exact htr lsn ts hmem
    · simp only [List.mem_append, List.mem_cons, List.not_mem_nil,
        or_false] at hmem
      rcases hmem with hmem | hmem
      · exact htr lsn ts hmem
      · exact absurd hmem (by simp)
  case STREAM_ACTION_DELETE =>
    split_ifs at hmem
    · exact htr lsn ts hmem
    · simp only [List.mem_append, List.mem_cons, List.not_mem_nil,
        or_false] at hmem
      rcases hmem with hmem | hmem
      · exact htr lsn ts hmem
      · exact absurd hmem (by simp)
  case STREAM_ACTION_TRUNCATE =>
    split_ifs at hmem
    · exact htr lsn ts hmem
    · simp only [List.mem_append, List.mem_cons, List.not_mem_nil,
        or_false] at hmem
      rcases hmem with hmem | hmem
      · exact htr lsn ts hmem
      · exact absurd hmem (by simp)

theorem applyLoop_xact_setup_bound (ms : List (ApplyLine × Bool))
    (st : ApplyState) (hend : st.ctx.endpos ≠ 0)
    (htr : ∀ lsn ts, SessionOp.origin_xact_setup lsn ts ∈ st.trace →
      lsn ≤ st.ctx.endpos) :
    ∀ lsn ts, SessionOp.origin_xact_setup lsn ts ∈ (applyLoop st ms).trace →
      lsn ≤ st.ctx.endpos := by
  induction ms generalizing st with
  | nil => exact htr
  | cons m rest ih =>
    obtain ⟨l, b⟩ := m
    by_cases h : st.ok = false ∨ st.ctx.reachedEndPos = true
    · rw [applyLoop_stopped st _ h]
      exact htr
    · simp only [applyLoop, if_neg h]
      have hend' : (applyOneLine st l b).ctx.endpos ≠ 0 := by
        rw [applyOneLine_endpos]; exact hend
      have htr' : ∀ lsn ts,
          SessionOp.origin_xact_setup lsn ts ∈ (applyOneLine st l b).trace →
          lsn ≤ (applyOneLine st l b).ctx.endpos := by
        rw [applyOneLine_endpos]
        exact applyOneLine_xact_setup_bound st l b hend htr
      intro lsn ts hmem
      have := ih (applyOneLine st l b) hend' htr' lsn ts hmem
      rwa [applyOneLine_endpos] at this

/-! ## C1: endpos obedience -/

/-- Context for the endpos counterexample run: origin bootstrapped at LSN 0,
endpos 50, apply enabled. -/
def c1ctx : StreamApplyContext := ⟨0, 0, 50, true, false⟩

/-- A file holding one well-formed BEGIN record at LSN 100, past endpos. -/
def c1lines : List ApplyLine := [⟨.STREAM_ACTION_BEGIN, 100, 7, "ts0", ""⟩]

/-- C1 counterexample: the replay engine stops at a BEGIN whose LSN is past
endpos without applying anything, so it terminates with `reachedEndPos` set
while the durably advanced position `previousLSN` (0) is strictly below the
requested endpos (50); the driver's subsequent sentinel sync and endpos
recheck keep `reachedEndPos` set and do not advance `previousLSN`.  This
refutes the claim's "origin ≥ requested endpos" conjunct. -/
theorem c1_counterexample :
    (stream_apply_file c1ctx c1lines).ctx.reachedEndPos = true ∧
    (stream_apply_file c1ctx c1lines).ok = true ∧
    (stream_apply_file c1ctx c1lines).trace = [] ∧
    (stream_apply_file c1ctx c1lines).ctx.previousLSN < c1ctx.endpos ∧
    (driverPostFileCheck
      (stream_apply_sync_sentinel true (some ⟨0, 50, true⟩)
        (stream_apply_file c1ctx c1lines).ctx).2).reachedEndPos = true ∧
    (driverPostFileCheck
      (stream_apply_sync_sentinel true (some ⟨0, 50, true⟩)
        (stream_apply_file c1ctx c1lines).ctx).2).previousLSN < 50 := by
  decide

/-- C1 (amended): when an endpos is set, every transaction or keepalive the
replay engine actually applies on the target session registers an origin
position at most endpos (for a BEGIN the test is strict, for a KEEPALIVE it
may equal endpos).  The origin may remain below endpos when the run stops at
an unapplied BEGIN or KEEPALIVE past endpos, and an applied transaction's
COMMIT LSN may exceed endpos (only its BEGIN LSN is below it). -/
theorem c1_applied_setup_lsn_bounded (ctx : StreamApplyContext)
    (lines : List ApplyLine) (hend : ctx.endpos ≠ 0) :
    ∀ lsn ts, SessionOp.origin_xact_setup lsn ts ∈
      (stream_apply_file ctx lines).trace → lsn ≤ ctx.endpos :=
  applyLoop_xact_setup_bound (markLast lines) (applyInit ctx) hend
    (by intro lsn ts h; simp [applyInit] at h)

/-- Witness for `c1_applied_setup_lsn_bounded` at a concrete run: the
transaction begun at LSN 40 under endpos 50 is registered at 40 ≤ 50. -/
theorem c1_applied_setup_lsn_bounded_witness :
    SessionOp.origin_xact_setup 40 "t" ∈
      (stream_apply_file ⟨0, 0, 50, true, false⟩
        [⟨.STREAM_ACTION_BEGIN, 40, 1, "t", ""⟩]).trace ∧
    (40 : Nat) ≤ 50 :=
  ⟨by decide,
   c1_applied_setup_lsn_bounded ⟨0, 0, 50, true, false⟩
     [⟨.STREAM_ACTION_BEGIN, 40, 1, "t", ""⟩] (by decide) 40 "t" (by decide)⟩

/-! ## C2: the two end-position predicates -/

/-- C2: on a BEGIN record with a non-empty timestamp, when endpos is set and
endpos ≤ the record's LSN the engine sets `reachedEndPos` and issues nothing
on the target session (the transaction is not begun, `previousLSN` is kept);
on a KEEPALIVE record whose LSN equals endpos (reached going forward,
`previousLSN` < LSN), the pre-commit check is strict so the keepalive is
still applied — begin, origin xact setup, commit — `previousLSN` advances to
exactly endpos, and the post-commit recheck with ≤ sets `reachedEndPos`. -/
theorem c2_endpos_predicates (st : ApplyState) (l : ApplyLine) (b : Bool) :
    (l.action = .STREAM_ACTION_BEGIN → l.timestamp ≠ "" →
      st.ctx.endpos ≠ 0 → st.ctx.endpos ≤ l.lsn →
      (applyOneLine st l b).ctx.reachedEndPos = true ∧
      (applyOneLine st l b).trace = st.trace ∧
      (applyOneLine st l b).ctx.previousLSN = st.ctx.previousLSN ∧
      (applyOneLine st l b).ok = st.ok) ∧
    (l.action = .STREAM_ACTION_KEEPALIVE → l.timestamp ≠ "" →
      st.ctx.endpos ≠ 0 → l.lsn = st.ctx.endpos →
      st.ctx.previousLSN < l.lsn →
      (applyOneLine st l b).trace = st.trace ++
        [.pgsql_begin, .origin_xact_setup l.lsn l.timestamp,
         .pgsql_execute "COMMIT"] ∧
      (applyOneLine st l b).ctx.previousLSN = st.ctx.endpos ∧
      (applyOneLine st l b).ctx.reachedEndPos = true) := by
  obtain ⟨a, llsn, lxid, lts, lsql⟩ := l
  constructor
  · intro ha hts hend hle
    dsimp only at ha hts hle ⊢
    subst ha
    have hlsn : llsn ≠ 0 := by omega
    simp only [applyOneLine]
    split_ifs with h1 h2 h3
    · rcases h1 with h | h
      · exact absurd h hlsn
      · exact absurd h hts
    · simp
    · exact absurd ⟨hend, hle⟩ h2
    · exact absurd ⟨hend, hle⟩ h2
  · intro ha hts hend heq hlt
    dsimp only at ha hts heq hlt ⊢
    subst ha
    have hlsn : llsn ≠ 0 := by
      rw [heq]; exact hend
    simp only [applyOneLine]
    split_ifs with h1 h2 h3 h4
    · rcases h1 with h | h
      · exact absurd h hlsn
      · exact absurd h hts
    · rw [heq] at h2
      omega
    · simp [hlt] at h3
    · simp [heq]
    · exact absurd ⟨hend, by omega⟩ h4

/-- Initial state for the C2 witness run: origin at 0, endpos 50. -/
def c2st : ApplyState := applyInit ⟨0, 0, 50, true, false⟩

/-- A BEGIN record at LSN 60, past endpos 50. -/
def c2begin : ApplyLine := ⟨.STREAM_ACTION_BEGIN, 60, 1, "t", ""⟩

/-- A KEEPALIVE record exactly at endpos 50. -/
def c2keep : ApplyLine := ⟨.STREAM_ACTION_KEEPALIVE, 50, 0, "t", ""⟩

/-- Witness for `c2_endpos_predicates` at concrete records. -/
theorem c2_endpos_predicates_witness :
    ((applyOneLine c2st c2begin false).ctx.reachedEndPos = true ∧
     (applyOneLine c2st c2begin false).trace = c2st.trace ∧
     (applyOneLine c2st c2begin false).ctx.previousLSN =
       c2st.ctx.previousLSN ∧
     (applyOneLine c2st c2begin false).ok = c2st.ok) ∧
    ((applyOneLine c2st c2keep false).trace = c2st.trace ++
       [.pgsql_begin, .origin_xact_setup c2keep.lsn c2keep.timestamp,
        .pgsql_execute "COMMIT"] ∧
     (applyOneLine c2st c2keep false).ctx.previousLSN = c2st.ctx.endpos ∧
     (applyOneLine c2st c2keep false).ctx.reachedEndPos = true) :=
  ⟨(c2_endpos_predicates c2st c2begin false).1 (by decide) (by decide)
     (by decide) (by decide),
   (c2_endpos_predicates c2st c2keep false).2 (by decide) (by decide)
     (by decide) (by decide) (by decide)⟩

/-! ## C3: monotonicity of previousLSN -/

/-- The LSN metadata carried by a control record (BEGIN, COMMIT, SWITCH,
KEEPALIVE); DML and unknown lines carry none. -/
def ctrlLSN? (l : ApplyLine) : Option Nat :=
  match l.action with
  | .STREAM_ACTION_BEGIN => some l.lsn
  | .STREAM_ACTION_COMMIT => some l.lsn
  | .STREAM_ACTION_SWITCH => some l.lsn
  | .STREAM_ACTION_KEEPALIVE => some l.lsn
  | _ => none

/-- The control-record LSNs of a marked line list, in file order. -/
def ctrlLSNs (ms : List (ApplyLine × Bool)) : List Nat :=
  ms.filterMap fun p => ctrlLSN? p.1

theorem ctrlLSNs_cons_some (l : ApplyLine) (b : Bool)
    (ms : List (ApplyLine × Bool)) (m : Nat) (h : ctrlLSN? l = some m) :
    ctrlLSNs ((l, b) :: ms) = m :: ctrlLSNs ms := by
  simp [ctrlLSNs, List.filterMap_cons, h]

theorem ctrlLSN_of_switch (l : ApplyLine)
    (h : l.action = .STREAM_ACTION_SWITCH) : ctrlLSN? l = some l.lsn := by
  simp [ctrlLSN?, h]

/-- Invariant for the monotonicity proof: once `reachedStartingPosition` is
set, `previousLSN` is at most every remaining control-record LSN, and
`previousLSN` is at most every remaining SWITCH record's LSN
unconditionally. -/
def MonoInv (st : ApplyState) (ms : List (ApplyLine × Bool)) : Prop :=
  (st.reachedStartingPosition = true →
    ∀ p ∈ ms, ∀ n, ctrlLSN? p.1 = some n → st.ctx.previousLSN ≤ n) ∧
  (∀ p ∈ ms, p.1.action = .STREAM_ACTION_SWITCH →
    st.ctx.previousLSN ≤ p.1.lsn)

theorem applyOneLine_mono (st : ApplyState) (l : ApplyLine) (b : Bool)
    (rest : List (ApplyLine × Bool))
    (hsort : List.Pairwise (· ≤ ·) (ctrlLSNs ((l, b) :: rest)))
    (hinv : MonoInv st ((l, b) :: rest)) :
    st.ctx.previousLSN ≤ (applyOneLine st l b).ctx.previousLSN ∧
    MonoInv (applyOneLine st l b) rest := by
  obtain ⟨inv1, inv2⟩ := hinv
  have hrest : ∀ m, ctrlLSN? l = some m →
      ∀ p ∈ rest, ∀ n, ctrlLSN? p.1 = some n → m ≤ n := by
    intro m hm p hp n hn
    rw [ctrlLSNs_cons_some l b rest m hm] at hsort
    exact (List.pairwise_cons.mp hsort).1 n
      (by simp only [ctrlLSNs, List.mem_filterMap]; exact ⟨p, hp, hn⟩)
  have hswrest : ∀ m, ctrlLSN? l = some m →
      ∀ p ∈ rest, p.1.action = .STREAM_ACTION_SWITCH → m ≤ p.1.lsn := by
    intro m hm p hp hsw
    exact hrest m hm p hp p.1.lsn (ctrlLSN_of_switch p.1 hsw)
  obtain ⟨a, llsn, lxid, lts, lsql⟩ := l
  cases a <;> simp only [applyOneLine]
  case STREAM_ACTION_UNKNOWN =>
    exact ⟨Nat.le_refl _,
      fun h p hp n hn => inv1 h p (List.mem_cons_of_mem _ hp) n hn,
      fun p hp h => inv2 p (List.mem_cons_of_mem _ hp) h⟩
  case STREAM_ACTION_SWITCH =>
    have hhead : st.ctx.previousLSN ≤ llsn :=
      inv2 _ (List.mem_cons_self _ _) rfl
    split_ifs with hb
    · exact ⟨Nat.le_refl _,
        fun h p hp n hn => inv1 h p (List.mem_cons_of_mem _ hp) n hn,
        fun p hp h => inv2 p (List.mem_cons_of_mem _ hp) h⟩
    · exact ⟨hhead,
        fun h p hp n hn => hrest llsn rfl p hp n hn,
        fun p hp h => hswrest llsn rfl p hp h⟩
  case STREAM_ACTION_BEGIN =>
    have key : (st.reachedStartingPosition ||
        decide (st.ctx.previousLSN < llsn)) = true →
        ∀ p ∈ rest, ∀ n, ctrlLSN? p.1 = some n →
          st.ctx.previousLSN ≤ n := by
      intro h p hp n hn
      have hor : st.reachedStartingPosition = true ∨
          st.ctx.previousLSN < llsn := by
        simpa using h
      rcases hor with h1 | h2
      · exact inv1 h1 p (List.mem_cons_of_mem _ hp) n hn
      · have h4 : llsn ≤ n := hrest llsn rfl p hp n hn
        omega
    split_ifs <;>
      exact ⟨Nat.le_refl _, key,
        fun p hp h => inv2 p (List.mem_cons_of_mem _ hp) h⟩
  case STREAM_ACTION_COMMIT =>
    split_ifs with h1 h2
    · exact ⟨Nat.le_refl _,
        fun h p hp n hn => inv1 h p (List.mem_cons_of_mem _ hp) n hn,
        fun p hp h => inv2 p (List.mem_cons_of_mem _ hp) h⟩
    all_goals
      have hrs : st.reachedStartingPosition = true := by
        simpa using h1
      exact ⟨inv1 hrs _ (List.mem_cons_self _ _) llsn rfl,
        fun h p hp n hn => hrest llsn rfl p hp n hn,
        fun p hp h => hswrest llsn rfl p hp h⟩
  case STREAM_ACTION_KEEPALIVE =>
    have key : (st.reachedStartingPosition ||
        decide (st.ctx.previousLSN < llsn)) = true →
        ∀ p ∈ rest, ∀ n, ctrlLSN? p.1 = some n →
          st.ctx.previousLSN ≤ n := by
      intro h p hp n hn
      have hor : st.reachedStartingPosition = true ∨
          st.ctx.previousLSN < llsn := by
        simpa using h
      rcases hor with h1 | h2
      · exact inv1 h1 p (List.mem_cons_of_mem _ hp) n hn
      · have h4 : llsn ≤ n := hrest llsn rfl p hp n hn
        omega
    have hmono : st.reachedStartingPosition = true ∨
        st.ctx.previousLSN < llsn →
        st.ctx.previousLSN ≤ llsn := by
      intro h
      rcases h with h1 | h2
      · exact inv1 h1 _ (List.mem_cons_self _ _) llsn rfl
      · exact Nat.le_of_lt h2
    split_ifs with h1 h2 h3 h4
    · exact ⟨Nat.le_refl _, key,
        fun p hp h => inv2 p (List.mem_cons_of_mem _ hp) h⟩
    · exact ⟨Nat.le_refl _, key,
        fun p hp h => inv2 p (List.mem_cons_of_mem _ hp) h⟩
    · exact ⟨Nat.le_refl _, key,
        fun p hp h => inv2 p (List.mem_cons_of_mem _ hp) h⟩
    all_goals
      simp at h3
      have hor : st.reachedStartingPosition = true ∨
          st.ctx.previousLSN < llsn := by
        cases hb : st.reachedStartingPosition with
        | false => exact Or.inr (h3 hb)
        | true => exact Or.inl rfl
      exact ⟨hmono hor,
        fun h p hp n hn => hrest llsn rfl p hp n hn,
        fun p hp h => hswrest llsn rfl p hp h⟩
  case STREAM_ACTION_INSERT =>
    split_ifs <;>
      exact ⟨Nat.le_refl _,
        fun h p hp n hn => inv1 h p (List.mem_cons_of_mem _ hp) n hn,
        fun p hp h => inv2 p (List.mem_cons_of_mem _ hp) h⟩
  case STREAM_ACTION_UPDATE =>
    split_ifs <;>
      exact ⟨Nat.le_refl _,
        fun h p hp n hn => inv1 h p (List.mem_cons_of_mem _ hp) n hn,
        fun p hp h => inv2 p (List.mem_cons_of_mem _ hp) h⟩
  case STREAM_ACTION_DELETE =>
    split_ifs <;>
      exact ⟨Nat.le_refl _,
        fun h p hp n hn => inv1 h p (List.mem_cons_of_mem _ hp) n hn,
        fun p hp h => inv2 p (List.mem_cons_of_mem _ hp) h⟩
  case STREAM_ACTION_TRUNCATE =>
    split_ifs <;>
      exact ⟨Nat.le_refl _,
        fun h p hp n hn => inv1 h p (List.mem_cons_of_mem _ hp) n hn,
        fun p hp h => inv2 p (List.mem_cons_of_mem _ hp) h⟩

theorem ctrlLSNs_cons_none (l : ApplyLine) (b : Bool)
    (ms : List (ApplyLine × Bool)) (h : ctrlLSN? l = none) :
    ctrlLSNs ((l, b) :: ms) = ctrlLSNs ms := by
  simp [ctrlLSNs, List.filterMap_cons, h]

theorem applyLoop_mono_prefix (ms : List (ApplyLine × Bool)) (st : ApplyState)
    (hsort : List.Pairwise (· ≤ ·) (ctrlLSNs ms))
    (hinv : MonoInv st ms) (i : Nat) :
    (applyLoop st (ms.take i)).ctx.previousLSN ≤
    (applyLoop st (ms.take (i + 1))).ctx.previousLSN := by
  induction ms generalizing st i with
  | nil => simp [applyLoop]
  | cons m rest ih =>
    obtain ⟨l, b⟩ := m
    by_cases hstop : st.ok = false ∨ st.ctx.reachedEndPos = true
    · rw [applyLoop_stopped st _ hstop, applyLoop_stopped st _ hstop]
    · cases i with
      | zero =>
        simp only [List.take_zero, List.take_succ_cons]
        simp only [applyLoop, if_neg hstop]
        exact (applyOneLine_mono st l b rest hsort hinv).1
      | succ j =>
        simp only [List.take_succ_cons]
        simp only [applyLoop, if_neg hstop]
        have hsort' : List.Pairwise (· ≤ ·) (ctrlLSNs rest) := by
          cases hc : ctrlLSN? l with
          | none => rwa [ctrlLSNs_cons_none l b rest hc] at hsort
          | some n =>
            rw [ctrlLSNs_cons_some l b rest n hc] at hsort
            exact (List.pairwise_cons.mp hsort).2
        exact ih (applyOneLine st l b) hsort'
          (applyOneLine_mono st l b rest hsort hinv).2 j

/-- C3 (amended): on a file whose control records are in non-decreasing LSN
order and whose SWITCH records (if any) sit at or above the bootstrap
`previousLSN`, the `previousLSN` seen by the replay loop never decreases: the
value after any `i + 1` iterations is at least the value after `i`
iterations.  The SWITCH hypothesis is forced by the counterexample
`c3_counterexample`: the SWITCH assignment at ld_apply.c line 348 is the one
unguarded write to `previousLSN`. -/
theorem c3_previousLSN_monotone (ctx : StreamApplyContext)
    (lines : List ApplyLine)
    (hsort : List.Pairwise (· ≤ ·) (lines.filterMap ctrlLSN?))
    (hsw : ∀ l ∈ lines, l.action = .STREAM_ACTION_SWITCH →
      ctx.previousLSN ≤ l.lsn) (i : Nat) :
    (stream_apply_file_upto ctx lines i).ctx.previousLSN ≤
    (stream_apply_file_upto ctx lines (i + 1)).ctx.previousLSN := by
  have hms : ctrlLSNs (markLast lines) = lines.filterMap ctrlLSN? := by
    conv_rhs => rw [← markLast_map_fst lines]
    rw [List.filterMap_map]
    rfl
  have hinv : MonoInv (applyInit ctx) (markLast lines) := by
    constructor
    · intro h
      simp [applyInit] at h
    · intro p hp h
      have hmem : p.1 ∈ lines := by
        rw [← markLast_map_fst lines]
        exact List.mem_map_of_mem Prod.fst hp
      exact hsw p.1 hmem h
  have hsort' : List.Pairwise (· ≤ ·) (ctrlLSNs (markLast lines)) := by
    rw [hms]; exact hsort
  exact applyLoop_mono_prefix (markLast lines) (applyInit ctx) hsort' hinv i

/-- Witness for `c3_previousLSN_monotone`: one applied transaction, the step
from after the BEGIN to after the COMMIT. -/
theorem c3_previousLSN_monotone_witness :
    (stream_apply_file_upto ⟨0, 0, 0, true, false⟩
      [⟨.STREAM_ACTION_BEGIN, 10, 1, "t", ""⟩,
       ⟨.STREAM_ACTION_COMMIT, 20, 1, "", ""⟩] 1).ctx.previousLSN ≤
    (stream_apply_file_upto ⟨0, 0, 0, true, false⟩
      [⟨.STREAM_ACTION_BEGIN, 10, 1, "t", ""⟩,
       ⟨.STREAM_ACTION_COMMIT, 20, 1, "", ""⟩] 2).ctx.previousLSN :=
  c3_previousLSN_monotone ⟨0, 0, 0, true, false⟩
    [⟨.STREAM_ACTION_BEGIN, 10, 1, "t", ""⟩,
     ⟨.STREAM_ACTION_COMMIT, 20, 1, "", ""⟩] (by decide) (by decide) 1

/-- C3 counterexample: a file whose lines are (trivially) in non-decreasing
LSN order — a single SWITCH record at LSN 10 — but whose replay from a
context bootstrapped at `previousLSN = 100` ends, successfully, with
`previousLSN = 10 < 100`: the SWITCH assignment (ld_apply.c line 348) writes
a value strictly below the current `previousLSN`. -/
theorem c3_counterexample :
    List.Pairwise (· ≤ ·) (List.filterMap ctrlLSN?
      [(⟨.STREAM_ACTION_SWITCH, 10, 0, "", ""⟩ : ApplyLine)]) ∧
    (stream_apply_file ⟨100, 0, 0, true, false⟩
      [⟨.STREAM_ACTION_SWITCH, 10, 0, "", ""⟩]).ok = true ∧
    (stream_apply_file_upto ⟨100, 0, 0, true, false⟩
      [⟨.STREAM_ACTION_SWITCH, 10, 0, "", ""⟩] 1).ctx.previousLSN <
    (stream_apply_file_upto ⟨100, 0, 0, true, false⟩
      [⟨.STREAM_ACTION_SWITCH, 10, 0, "", ""⟩] 0).ctx.previousLSN := by
  decide

/-! ## C4: sentinel sync error handling -/

/-- C4: evaluation of `stream_apply_sync_sentinel` at its two failure modes.
When `pgsql_sync_sentinel_apply` fails (second argument `none`), the code
only logs a warning — but then falls through to the unconditional assignments
at ld_apply.c lines 274-276, overwriting the context's `startpos`, `endpos`
and `apply` with the zero-initialized local sentinel (0, 0, false) and
returning true.  Only the `pgsql_init` failure path leaves the context
untouched.  This contradicts the call-site comment (lines 128-131: "Errors
are warning here, we'll update next time") and the claim that the control
fields keep their last successfully fetched values. -/
theorem c4_sync_sentinel_clobbers_on_failure :
    stream_apply_sync_sentinel true none ⟨10, 3, 5, true, false⟩ =
      (true, ⟨10, 0, 0, false, false⟩) ∧
    stream_apply_sync_sentinel false none ⟨10, 3, 5, true, false⟩ =
      (false, ⟨10, 3, 5, true, false⟩) ∧
    stream_apply_sync_sentinel true (some ⟨7, 9, true⟩) ⟨10, 3, 5, true, false⟩ =
      (true, ⟨10, 7, 9, true, false⟩) := by
  decide

/-! ## C9: endpos precedence at bootstrap -/

theorem setupReplicationOrigin_endpos_warned (ctx : StreamApplyContext)
    (endpos : Nat) (apply pgsqlInitOk : Bool) (oidResult : Option Nat)
    (progressResult : Option Nat) (sessionSetupOk : Bool) :
    (setupReplicationOrigin ctx endpos apply pgsqlInitOk oidResult
        progressResult sessionSetupOk).ctx.endpos =
      (if endpos ≠ 0 then endpos else ctx.endpos) ∧
    (setupReplicationOrigin ctx endpos apply pgsqlInitOk oidResult
        progressResult sessionSetupOk).warnedEndpos =
      decide (endpos ≠ 0 ∧ ctx.endpos ≠ 0) := by
  unfold setupReplicationOrigin
  dsimp only
  cases pgsqlInitOk <;>
    rcases oidResult with _ | (_ | oid) <;>
    rcases progressResult with _ | lsn <;>
    cases sessionSetupOk <;>
    dsimp only <;>
    split_ifs <;>
    simp_all

/-- C9: at bootstrap, a non-zero `--endpos` command-line value wins over the
sentinel-provided `context.endpos`, with a warning exactly when both were
non-zero; a zero (unset) command-line endpos keeps the sentinel value and
warns never (ld_apply.c lines 633-643). -/
theorem c9_endpos_precedence (ctx : StreamApplyContext) (endpos : Nat)
    (apply pgsqlInitOk : Bool) (oidResult : Option Nat)
    (progressResult : Option Nat) (sessionSetupOk : Bool) :
    (endpos ≠ 0 →
      (setupReplicationOrigin ctx endpos apply pgsqlInitOk oidResult
          progressResult sessionSetupOk).ctx.endpos = endpos ∧
      ((setupReplicationOrigin ctx endpos apply pgsqlInitOk oidResult
          progressResult sessionSetupOk).warnedEndpos = true ↔
        ctx.endpos ≠ 0)) ∧
    (endpos = 0 →
      (setupReplicationOrigin ctx endpos apply pgsqlInitOk oidResult
          progressResult sessionSetupOk).ctx.endpos = ctx.endpos ∧
      (setupReplicationOrigin ctx endpos apply pgsqlInitOk oidResult
          progressResult sessionSetupOk).warnedEndpos = false) := by
  obtain ⟨he, hw⟩ := setupReplicationOrigin_endpos_warned ctx endpos apply
    pgsqlInitOk oidResult progressResult sessionSetupOk
  constructor
  · intro h1
    refine ⟨by rw [he]; simp [h1], ?_⟩
    rw [hw]
    constructor
    · intro h2
      simpa [h1] using h2
    · intro h2
      simp [h1, h2]
  · intro h1
    exact ⟨by rw [he]; simp [h1], by rw [hw]; simp [h1]⟩

/-- Witness for `c9_endpos_precedence`: command-line endpos 70 overrides
sentinel endpos 50 with a warning; command-line endpos 0 keeps sentinel
endpos 50 with no warning. -/
theorem c9_endpos_precedence_witness :
    ((setupReplicationOrigin ⟨0, 0, 50, false, false⟩ 70 true true (some 3)
        (some 40) true).ctx.endpos = 70 ∧
     ((setupReplicationOrigin ⟨0, 0, 50, false, false⟩ 70 true true (some 3)
        (some 40) true).warnedEndpos = true ↔ (50 : Nat) ≠ 0)) ∧
    ((setupReplicationOrigin ⟨0, 0, 50, false, false⟩ 0 true true (some 3)
        (some 40) true).ctx.endpos = 50 ∧
     (setupReplicationOrigin ⟨0, 0, 50, false, false⟩ 0 true true (some 3)
        (some 40) true).warnedEndpos = false) :=
  ⟨(c9_endpos_precedence ⟨0, 0, 50, false, false⟩ 70 true true (some 3)
      (some 40) true).1 (by decide),
   (c9_endpos_precedence ⟨0, 0, 50, false, false⟩ 0 true true (some 3)
      (some 40) true).2 rfl⟩

/-! ## C7: startpos skip -/

/-- The LSN of a record that can flip `reachedStartingPosition`: only BEGIN
and KEEPALIVE update the flag (ld_apply.c lines 356-360 and 471-475). -/
def flipLSN? (l : ApplyLine) : Option Nat :=
  match l.action with
  | .STREAM_ACTION_BEGIN => some l.lsn
  | .STREAM_ACTION_KEEPALIVE => some l.lsn
  | _ => none

theorem applyOneLine_skip (st : ApplyState) (l : ApplyLine) (b : Bool)
    (hstart : st.reachedStartingPosition = false)
    (hlsn : ∀ n, flipLSN? l = some n → n ≤ st.ctx.previousLSN)
    (hsw : l.action ≠ .STREAM_ACTION_SWITCH) :
    (applyOneLine st l b).trace = st.trace ∧
    (applyOneLine st l b).reachedStartingPosition = false ∧
    (applyOneLine st l b).ctx.previousLSN = st.ctx.previousLSN := by
  obtain ⟨a, llsn, lxid, lts, lsql⟩ := l
  cases a
  case STREAM_ACTION_SWITCH => exact absurd rfl hsw
  case STREAM_ACTION_UNKNOWN =>
    exact ⟨rfl, hstart, rfl⟩
  case STREAM_ACTION_BEGIN =>
    have hle : llsn ≤ st.ctx.previousLSN := hlsn llsn rfl
    have hrs : (st.reachedStartingPosition ||
        decide (st.ctx.previousLSN < llsn)) = false := by
      rw [hstart]
      simp
      omega
    simp only [applyOneLine]
    split_ifs with h1 h2 h3
    · exact ⟨rfl, hrs, rfl⟩
    · exact ⟨rfl, hrs, rfl⟩
    · exact ⟨rfl, hrs, rfl⟩
    · rw [hrs] at h3
      simp at h3
  case STREAM_ACTION_KEEPALIVE =>
    have hle : llsn ≤ st.ctx.previousLSN := hlsn llsn rfl
    have hrs : (st.reachedStartingPosition ||
        decide (st.ctx.previousLSN < llsn)) = false := by
      rw [hstart]
      simp
      omega
    simp only [applyOneLine]
    split_ifs with h1 h2 h3 h4
    · exact ⟨rfl, hrs, rfl⟩
    · exact ⟨rfl, hrs, rfl⟩
    · exact ⟨rfl, hrs, rfl⟩
    all_goals
      rw [hrs] at h3
      simp at h3
  case STREAM_ACTION_COMMIT =>
    simp only [applyOneLine]
    split_ifs with h1 h2
    · exact ⟨rfl, hstart, rfl⟩
    all_goals
      rw [hstart] at h1
      simp at h1
  case STREAM_ACTION_INSERT =>
    simp only [applyOneLine]
    split_ifs with h1
    · exact ⟨rfl, hstart, rfl⟩
    · rw [hstart] at h1
      simp at h1
  case STREAM_ACTION_UPDATE =>
    simp only [applyOneLine]
    split_ifs with h1
    · exact ⟨rfl, hstart, rfl⟩
    · rw [hstart] at h1
      simp at h1
  case STREAM_ACTION_DELETE =>
    simp only [applyOneLine]
    split_ifs with h1
    · exact ⟨rfl, hstart, rfl⟩
    · rw [hstart] at h1
      simp at h1
  case STREAM_ACTION_TRUNCATE =>
    simp only [applyOneLine]
    split_ifs with h1
    · exact ⟨rfl, hstart, rfl⟩
    · rw [hstart] at h1
      simp at h1

theorem applyLoop_skip (ms : List (ApplyLine × Bool)) (st : ApplyState)
    (hstart : st.reachedStartingPosition = false)
    (hlsn : ∀ p ∈ ms, ∀ n, flipLSN? p.1 = some n → n ≤ st.ctx.previousLSN)
    (hsw : ∀ p ∈ ms, p.1.action ≠ .STREAM_ACTION_SWITCH) :
    (applyLoop st ms).trace = st.trace ∧
    (applyLoop st ms).reachedStartingPosition = false ∧
    (applyLoop st ms).ctx.previousLSN = st.ctx.previousLSN := by
  induction ms generalizing st with
  | nil => exact ⟨rfl, hstart, rfl⟩
  | cons m rest ih =>
    obtain ⟨l, b⟩ := m
    by_cases hstop : st.ok = false ∨ st.ctx.reachedEndPos = true
    · rw [applyLoop_stopped st _ hstop]
      exact ⟨rfl, hstart, rfl⟩
    · simp only [applyLoop, if_neg hstop]
      obtain ⟨h1, h2, h3⟩ := applyOneLine_skip st l b hstart
        (fun n hn => hlsn (l, b) (List.mem_cons_self _ _) n hn)
        (hsw (l, b) (List.mem_cons_self _ _))
      obtain ⟨g1, g2, g3⟩ := ih (applyOneLine st l b) h2
        (by
          intro p hp n hn
          rw [h3]
          exact hlsn p (List.mem_cons_of_mem _ hp) n hn)
        (fun p hp => hsw p (List.mem_cons_of_mem _ hp))
      exact ⟨g1.trans h1, g2, g3.trans h3⟩

/-- The parsed line list of one source transaction as the transform emits it:
a BEGIN record, the DML statement lines, a COMMIT record. -/
def txnLines (blsn bxid : Nat) (bts : String) (body : List ApplyLine)
    (clsn cxid : Nat) : List ApplyLine :=
  ⟨.STREAM_ACTION_BEGIN, blsn, bxid, bts, ""⟩ ::
    (body ++ [⟨.STREAM_ACTION_COMMIT, clsn, cxid, "", ""⟩])

/-- C7: on a file in LSN order, a transaction whose BEGIN LSN is at or below
the bootstrap `previousLSN` is skipped entirely: after the replay loop has
consumed the preceding lines (none of which reach the starting position
either) and the whole transaction, not a single command — no begin, no DML
execute, no origin xact setup, no commit — has been issued on the target
session.  The LSN-order hypothesis appears as: every BEGIN/KEEPALIVE before
or inside the transaction sits at or below the bootstrap `previousLSN`, and
no SWITCH occurs before the transaction. -/
theorem c7_startpos_skip (ctx : StreamApplyContext)
    (pre body post : List ApplyLine) (blsn bxid : Nat) (bts : String)
    (clsn cxid : Nat)
    (hpre_flip : ∀ l ∈ pre, ∀ n, flipLSN? l = some n → n ≤ ctx.previousLSN)
    (hpre_sw : ∀ l ∈ pre, l.action ≠ .STREAM_ACTION_SWITCH)
    (hb : blsn ≤ ctx.previousLSN)
    (hbody : ∀ l ∈ body, l.action = .STREAM_ACTION_INSERT ∨
      l.action = .STREAM_ACTION_UPDATE ∨
      l.action = .STREAM_ACTION_DELETE ∨
      l.action = .STREAM_ACTION_TRUNCATE) :
    (stream_apply_file_upto ctx
        ((pre ++ txnLines blsn bxid bts body clsn cxid) ++ post)
        (pre.length + (body.length + 2))).trace = [] := by
  have hk : (pre ++ txnLines blsn bxid bts body clsn cxid).length =
      pre.length + (body.length + 2) := by
    simp [txnLines]
  have hfst : ((markLast ((pre ++ txnLines blsn bxid bts body clsn cxid) ++
      post)).take (pre.length + (body.length + 2))).map Prod.fst =
      pre ++ txnLines blsn bxid bts body clsn cxid := by
    rw [List.map_take, markLast_map_fst, ← hk, List.take_left]
  have hmem : ∀ p ∈ (markLast ((pre ++ txnLines blsn bxid bts body clsn
      cxid) ++ post)).take (pre.length + (body.length + 2)),
      p.1 ∈ pre ++ txnLines blsn bxid bts body clsn cxid := by
    intro p hp
    rw [← hfst]
    exact List.mem_map_of_mem Prod.fst hp
  have hskip := applyLoop_skip
    ((markLast ((pre ++ txnLines blsn bxid bts body clsn cxid) ++
      post)).take (pre.length + (body.length + 2)))
    (applyInit ctx) rfl
    (by
      intro p hp n hn
      show n ≤ ctx.previousLSN
      rcases List.mem_append.mp (hmem p hp) with h | h
      · exact hpre_flip p.1 h n hn
      · rcases List.mem_cons.mp h with h | h
        · rw [h] at hn
          have hn' : n = blsn := by
            simpa [flipLSN?] using hn.symm
          omega
        · rcases List.mem_append.mp h with h | h
          · rcases hbody p.1 h with h4 | h4 | h4 | h4 <;>
              simp [flipLSN?, h4] at hn
          · rw [List.mem_singleton] at h
            rw [h] at hn
            simp [flipLSN?] at hn)
    (by
      intro p hp
      rcases List.mem_append.mp (hmem p hp) with h | h
      · exact hpre_sw p.1 h
      · rcases List.mem_cons.mp h with h | h
        · rw [h]
          intro hcon
          simp at hcon
        · rcases List.mem_append.mp h with h | h
          · rcases hbody p.1 h with h4 | h4 | h4 | h4 <;> simp [h4]
          · rw [List.mem_singleton] at h
            rw [h]
            intro hcon
            simp at hcon)
  exact hskip.1

/-- Witness for `c7_startpos_skip`: bootstrap at LSN 100, one transaction
BEGIN 40 / one INSERT / COMMIT 60 entirely below it, nothing applied. -/
theorem c7_startpos_skip_witness :
    (stream_apply_file_upto ⟨100, 0, 0, true, false⟩
        ((([] : List ApplyLine) ++ txnLines 40 1 "t"
          [⟨.STREAM_ACTION_INSERT, 0, 0, "", "INSERT INTO a VALUES (1);"⟩]
          60 1) ++
          [⟨.STREAM_ACTION_KEEPALIVE, 120, 0, "t", ""⟩])
        (0 + (1 + 2))).trace = [] :=
  c7_startpos_skip ⟨100, 0, 0, true, false⟩ []
    [⟨.STREAM_ACTION_INSERT, 0, 0, "", "INSERT INTO a VALUES (1);"⟩]
    [⟨.STREAM_ACTION_KEEPALIVE, 120, 0, "t", ""⟩] 40 1 "t" 60 1
    (by intro l hl; simp at hl) (by intro l hl; simp at hl)
    (by decide)
    (by
      intro l hl
      simp only [List.mem_singleton] at hl
      rw [hl]
      exact Or.inl rfl)

/-! ## C8: SWITCH must be the last line -/

/-- C8: when the replay loop, still live after the preceding lines, meets a
SWITCH record that is not on the last line of the file, `stream_apply_file`
fails (ld_apply.c lines 335-342), leaving `previousLSN` and the session trace
exactly as they were before that line; when the SWITCH record is the last
line, the replay succeeds with `previousLSN` set to the SWITCH record's LSN
(line 348). -/
theorem c8_switch_must_be_last (ctx : StreamApplyContext)
    (pre post : List ApplyLine) (l : ApplyLine)
    (hl : l.action = .STREAM_ACTION_SWITCH)
    (hok : (stream_apply_file_upto ctx (pre ++ l :: post) pre.length).ok =
      true)
    (hend : (stream_apply_file_upto ctx (pre ++ l :: post)
      pre.length).ctx.reachedEndPos = false) :
    (post ≠ [] →
      stream_apply_file ctx (pre ++ l :: post) =
        { stream_apply_file_upto ctx (pre ++ l :: post) pre.length with
          ok := false }) ∧
    (post = [] →
      stream_apply_file ctx (pre ++ l :: post) =
        { stream_apply_file_upto ctx (pre ++ l :: post) pre.length with
          ctx := { (stream_apply_file_upto ctx (pre ++ l :: post)
            pre.length).ctx with previousLSN := l.lsn } }) := by
  have htake : (markLast (pre ++ l :: post)).take pre.length =
      pre.map (fun x => (x, false)) := by
    rw [markLast_append pre (l :: post) (by simp)]
    have h2 := List.take_left (pre.map fun x => (x, false))
      (markLast (l :: post))
    rwa [List.length_map] at h2
  have hpre : stream_apply_file_upto ctx (pre ++ l :: post) pre.length =
      applyLoop (applyInit ctx) (pre.map fun x => (x, false)) := by
    rw [stream_apply_file_upto, htake]
  have hstop : ¬((stream_apply_file_upto ctx (pre ++ l :: post)
      pre.length).ok = false ∨ (stream_apply_file_upto ctx (pre ++ l ::
      post) pre.length).ctx.reachedEndPos = true) := by
    rw [hok, hend]
    simp
  constructor
  · intro hpost
    rw [stream_apply_file, markLast_append pre (l :: post) (by simp),
      markLast_cons_of_ne_nil l post hpost, applyLoop_append, ← hpre]
    simp only [applyLoop, if_neg hstop]
    have hstep : applyOneLine (stream_apply_file_upto ctx (pre ++ l :: post)
        pre.length) l false =
        { stream_apply_file_upto ctx (pre ++ l :: post) pre.length with
          ok := false } := by
      obtain ⟨a, llsn, lxid, lts, lsql⟩ := l
      dsimp only at hl
      subst hl
      simp [applyOneLine]
    rw [hstep]
    exact applyLoop_stopped _ _ (Or.inl rfl)
  · intro hpost
    subst hpost
    rw [stream_apply_file, markLast_append pre [l] (by simp),
      applyLoop_append, ← hpre]
    simp only [markLast]
    simp only [applyLoop, if_neg hstop]
    obtain ⟨a, llsn, lxid, lts, lsql⟩ := l
    dsimp only at hl
    subst hl
    simp [applyOneLine, applyLoop]

/-- Witness for `c8_switch_must_be_last`: from a fresh context, a SWITCH at
LSN 10 followed by a keepalive aborts the file; a SWITCH at LSN 10 as the
only line sets `previousLSN` to 10. -/
theorem c8_switch_must_be_last_witness :
    (stream_apply_file ⟨3, 0, 0, true, false⟩
      ([] ++ (⟨.STREAM_ACTION_SWITCH, 10, 0, "", ""⟩ : ApplyLine) ::
        [⟨.STREAM_ACTION_KEEPALIVE, 20, 0, "t", ""⟩]) =
      { stream_apply_file_upto ⟨3, 0, 0, true, false⟩
          ([] ++ (⟨.STREAM_ACTION_SWITCH, 10, 0, "", ""⟩ : ApplyLine) ::
            [⟨.STREAM_ACTION_KEEPALIVE, 20, 0, "t", ""⟩]) 0 with
        ok := false }) ∧
    (stream_apply_file ⟨3, 0, 0, true, false⟩
      ([] ++ (⟨.STREAM_ACTION_SWITCH, 10, 0, "", ""⟩ : ApplyLine) :: []) =
      { stream_apply_file_upto ⟨3, 0, 0, true, false⟩
          ([] ++ (⟨.STREAM_ACTION_SWITCH, 10, 0, "", ""⟩ : ApplyLine) :: [])
          0 with
        ctx := { (stream_apply_file_upto ⟨3, 0, 0, true, false⟩
          ([] ++ (⟨.STREAM_ACTION_SWITCH, 10, 0, "", ""⟩ : ApplyLine) :: [])
          0).ctx with
          previousLSN :=
            (⟨.STREAM_ACTION_SWITCH, 10, 0, "", ""⟩ : ApplyLine).lsn } }) :=
  ⟨(c8_switch_must_be_last ⟨3, 0, 0, true, false⟩ []
      [⟨.STREAM_ACTION_KEEPALIVE, 20, 0, "t", ""⟩]
      ⟨.STREAM_ACTION_SWITCH, 10, 0, "", ""⟩ rfl rfl rfl).1 (by simp),
   (c8_switch_must_be_last ⟨3, 0, 0, true, false⟩ [] []
      ⟨.STREAM_ACTION_SWITCH, 10, 0, "", ""⟩ rfl rfl rfl).2 rfl⟩

/-! ## C10: empty lines are fatal during replay -/

/-- C10: an empty line is classified `STREAM_ACTION_UNKNOWN` (ld_apply.c
lines 745-748), and when the replay loop — still live after the preceding
lines — meets it, it hits the `default` arm and the file replay fails with a
parse error (lines 588-592), freezing the state except for the failure
flag. -/
theorem c10_empty_line_fatal
    (parseMeta : String → Option LogicalMessageMetadata)
    (ctx : StreamApplyContext) (preT postT : List String)
    (hok : (stream_apply_file_upto ctx
      ((preT ++ "" :: postT).map (lineOfText parseMeta)) preT.length).ok =
      true)
    (hend : (stream_apply_file_upto ctx
      ((preT ++ "" :: postT).map (lineOfText parseMeta))
      preT.length).ctx.reachedEndPos = false) :
    (parseSQLAction parseMeta "").1 = .STREAM_ACTION_UNKNOWN ∧
    stream_apply_file_text parseMeta ctx (preT ++ "" :: postT) =
      { stream_apply_file_upto ctx
          ((preT ++ "" :: postT).map (lineOfText parseMeta)) preT.length with
        ok := false } := by
  have hmap : (preT ++ "" :: postT).map (lineOfText parseMeta) =
      preT.map (lineOfText parseMeta) ++ lineOfText parseMeta "" ::
        postT.map (lineOfText parseMeta) := by
    simp
  have hunk : lineOfText parseMeta "" =
      ⟨.STREAM_ACTION_UNKNOWN, 0, 0, "", ""⟩ := rfl
  have hstep : ∀ st b, applyOneLine st (lineOfText parseMeta "") b =
      { st with ok := false } := by
    intro st b
    rw [hunk]
    simp [applyOneLine]
  have htake : (markLast ((preT ++ "" :: postT).map
      (lineOfText parseMeta))).take preT.length =
      (preT.map (lineOfText parseMeta)).map (fun x => (x, false)) := by
    rw [hmap, markLast_append _ _ (by simp)]
    have h2 := List.take_left
      ((preT.map (lineOfText parseMeta)).map fun x => (x, false))
      (markLast (lineOfText parseMeta "" ::
        postT.map (lineOfText parseMeta)))
    rwa [List.length_map, List.length_map] at h2
  have hpre : stream_apply_file_upto ctx
      ((preT ++ "" :: postT).map (lineOfText parseMeta)) preT.length =
      applyLoop (applyInit ctx)
        ((preT.map (lineOfText parseMeta)).map fun x => (x, false)) := by
    rw [stream_apply_file_upto, htake]
  have hstop : ¬((stream_apply_file_upto ctx
      ((preT ++ "" :: postT).map (lineOfText parseMeta))
      preT.length).ok = false ∨
      (stream_apply_file_upto ctx
      ((preT ++ "" :: postT).map (lineOfText parseMeta))
      preT.length).ctx.reachedEndPos = true) := by
    rw [hok, hend]
    simp
  have hsplit : markLast ((preT ++ "" :: postT).map (lineOfText parseMeta)) =
      ((preT.map (lineOfText parseMeta)).map fun x => (x, false)) ++
        markLast (lineOfText parseMeta "" ::
          postT.map (lineOfText parseMeta)) := by
    rw [hmap, markLast_append _ _ (by simp)]
  refine ⟨rfl, ?_⟩
  rw [stream_apply_file_text, stream_apply_file, hsplit, applyLoop_append,
    ← hpre]
  cases hpp : postT.map (lineOfText parseMeta) with
  | nil =>
    simp only [markLast]
    simp only [applyLoop, if_neg hstop]
    rw [hstep]
  | cons p ps =>
    rw [markLast_cons_of_ne_nil _ _ (by simp)]
    simp only [applyLoop, if_neg hstop]
    rw [hstep]
    exact applyLoop_stopped _ _ (Or.inl rfl)

/-- Witness for `c10_empty_line_fatal`: an empty first line followed by a
well-formed DML line makes the replay fail from a fresh context. -/
theorem c10_empty_line_fatal_witness :
    (parseSQLAction (fun _ => none) "").1 = .STREAM_ACTION_UNKNOWN ∧
    stream_apply_file_text (fun _ => none) ⟨0, 0, 0, true, false⟩
      (([] : List String) ++ "" :: ["INSERT INTO t VALUES (1);"]) =
      { stream_apply_file_upto ⟨0, 0, 0, true, false⟩
          ((([] : List String) ++ "" :: ["INSERT INTO t VALUES (1);"]).map
            (lineOfText (fun _ => none))) (List.length ([] : List String))
          with ok := false } :=
  c10_empty_line_fatal (fun _ => none) ⟨0, 0, 0, true, false⟩ []
    ["INSERT INTO t VALUES (1);"] rfl rfl

/-! ## C6: the COMMIT tag offset -/

/-- C6: for every line starting with the COMMIT tag, the classifier's
dispatch advances past the tag by `strlen(OUTPUT_BEGIN)` — the BEGIN tag's
length, not the COMMIT tag's (ld_apply.c line 765) — so the payload handed
to the JSON parser is the line with its first `strlen(OUTPUT_BEGIN)`
characters removed.  The two tags differ in length, so the distinction is
observable: the payload keeps the tail of the COMMIT tag itself. -/
theorem c6_commit_tag_offset (q : String)
    (h : strIsPrefixOf OUTPUT_COMMIT q = true) :
    controlBranch q = some (.STREAM_ACTION_COMMIT,
      strDrop q (strLen OUTPUT_BEGIN)) ∧
    strLen OUTPUT_BEGIN ≠ strLen OUTPUT_COMMIT := by
  have hpre : OUTPUT_COMMIT.data <+: q.data := by
    rw [strIsPrefixOf] at h
    exact Iff.mp List.isPrefixOf_iff_prefix h
  obtain ⟨t, ht⟩ := hpre
  have hb : strIsPrefixOf OUTPUT_BEGIN q = false := by
    rw [strIsPrefixOf, Bool.eq_false_iff]
    intro hc
    obtain ⟨t2, ht2⟩ := Iff.mp List.isPrefixOf_iff_prefix hc
    rw [← ht] at ht2
    have h1 : (OUTPUT_BEGIN.data ++ t2).head? = some 'B' := rfl
    have h2 : (OUTPUT_COMMIT.data ++ t).head? = some 'C' := rfl
    rw [ht2, h2] at h1
    exact absurd h1 (by decide)
  constructor
  · simp [controlBranch, hb, h]
  · decide

/-- Witness for `c6_commit_tag_offset`: on the line COMMITXYZ the payload
handed to the JSON parser is TXYZ — the last character of the COMMIT tag
plus the real payload. -/
theorem c6_commit_tag_offset_witness :
    controlBranch "COMMITXYZ" = some (.STREAM_ACTION_COMMIT,
      strDrop "COMMITXYZ" (strLen OUTPUT_BEGIN)) ∧
    strLen OUTPUT_BEGIN ≠ strLen OUTPUT_COMMIT :=
  c6_commit_tag_offset "COMMITXYZ" (by decide)

/-! ## C5: classifier precedence -/

/-- The BEGIN line of the C5 counterexample: a line starting with the BEGIN
tag whose valid JSON payload happens to contain the characters INSERT
INTO (in its timestamp string). -/
def c5line : String :=
  "BEGIN \x7b\"lsn\": \"0/1\", \"xid\": 1, \"timestamp\": \"INSERT INTO\"\x7d"

/-- The payload of `c5line`: everything after the BEGIN tag. -/
def c5payload : String :=
  " \x7b\"lsn\": \"0/1\", \"xid\": 1, \"timestamp\": \"INSERT INTO\"\x7d"

/-- The metadata the external JSON parser reads from `c5payload`. -/
def c5meta : LogicalMessageMetadata :=
  { action := .STREAM_ACTION_UNKNOWN, lsn := 1, xid := 1,
    timestamp := "INSERT INTO" }

/-- Oracle for the external JSON parser in the C5 counterexample: it parses
exactly the payload of `c5line` (a well-formed JSON object). -/
def c5parseMeta : String → Option LogicalMessageMetadata :=
  fun s => if s = c5payload then some c5meta else none

/-- C5 counterexample: `c5line` starts with the BEGIN tag, its payload
parses, yet `parseSQLAction` classifies it INSERT, not BEGIN — the DML
substring scan (ld_apply.c lines 794-809) runs unconditionally and overrides
the control-tag kind. -/
theorem c5_counterexample :
    strIsPrefixOf OUTPUT_BEGIN c5line = true ∧
    c5parseMeta c5payload = some c5meta ∧
    (parseSQLAction c5parseMeta c5line).1 = .STREAM_ACTION_INSERT ∧
    (parseSQLAction c5parseMeta c5line).1 ≠ .STREAM_ACTION_BEGIN := by
  decide

/-- C5 (amended): a line starting with a control tag is classified as that
tag's kind provided its payload parses and the line contains none of the
four DML substrings; the DML substring scan applies to every line — also
control-tagged ones, overriding their kind — in the order INSERT INTO,
UPDATE, DELETE FROM, TRUNCATE, first match wins. -/
theorem c5_classifier_precedence
    (parseMeta : String → Option LogicalMessageMetadata) (q : String) :
    (∀ act msg md, controlBranch q = some (act, msg) →
      parseMeta msg = some md →
      strContainsSub q "INSERT INTO" = false →
      strContainsSub q "UPDATE " = false →
      strContainsSub q "DELETE FROM " = false →
      strContainsSub q "TRUNCATE " = false →
      (parseSQLAction parseMeta q).1 = act) ∧
    (controlBranch q = none → q ≠ "" →
      ((strContainsSub q "INSERT INTO" = true →
        (parseSQLAction parseMeta q).1 = .STREAM_ACTION_INSERT) ∧
       (strContainsSub q "INSERT INTO" = false →
        strContainsSub q "UPDATE " = true →
        (parseSQLAction parseMeta q).1 = .STREAM_ACTION_UPDATE) ∧
       (strContainsSub q "INSERT INTO" = false →
        strContainsSub q "UPDATE " = false →
        strContainsSub q "DELETE FROM " = true →
        (parseSQLAction parseMeta q).1 = .STREAM_ACTION_DELETE) ∧
       (strContainsSub q "INSERT INTO" = false →
        strContainsSub q "UPDATE " = false →
        strContainsSub q "DELETE FROM " = false →
        strContainsSub q "TRUNCATE " = true →
        (parseSQLAction parseMeta q).1 = .STREAM_ACTION_TRUNCATE))) := by
  constructor
  · intro act msg md hcb hpm h1 h2 h3 h4
    have hq : q ≠ "" := by
      intro h0
      rw [h0] at hcb
      have hnone : controlBranch "" = none := rfl
      rw [hnone] at hcb
      exact Option.noConfusion hcb
    simp only [parseSQLAction, if_neg hq, hcb, hpm]
    simp [overrideDML, h1, h2, h3, h4]
  · intro hcb hq
    refine ⟨?_, ?_, ?_, ?_⟩
    · intro h1
      simp only [parseSQLAction, if_neg hq, hcb]
      simp [overrideDML, h1]
    · intro h1 h2
      simp only [parseSQLAction, if_neg hq, hcb]
      simp [overrideDML, h1, h2]
    · intro h1 h2 h3
      simp only [parseSQLAction, if_neg hq, hcb]
      simp [overrideDML, h1, h2, h3]
    · intro h1 h2 h3 h4
      simp only [parseSQLAction, if_neg hq, hcb]
      simp [overrideDML, h1, h2, h3, h4]

/-- Metadata returned by the always-succeeding oracle of the C5 witness. -/
def c5wmeta : LogicalMessageMetadata :=
  { action := .STREAM_ACTION_UNKNOWN, lsn := 1, xid := 1, timestamp := "x" }

/-- Witness oracle: parses every payload. -/
def c5wparseMeta : String → Option LogicalMessageMetadata :=
  fun _ => some c5wmeta

/-- Witness for `c5_classifier_precedence`: a clean BEGIN line is classified
BEGIN; a DELETE statement line is classified DELETE. -/
theorem c5_classifier_precedence_witness :
    (parseSQLAction c5wparseMeta "BEGINP").1 = .STREAM_ACTION_BEGIN ∧
    (parseSQLAction c5wparseMeta "DELETE FROM t;").1 =
      .STREAM_ACTION_DELETE :=
  ⟨(c5_classifier_precedence c5wparseMeta "BEGINP").1
      .STREAM_ACTION_BEGIN "P" c5wmeta (by decide) rfl (by decide)
      (by decide) (by decide) (by decide),
   ((c5_classifier_precedence c5wparseMeta "DELETE FROM t;").2 (by decide)
      (by decide)).2.2.1 (by decide) (by decide) (by decide)⟩
